import Mathlib

/-!
Verification of the composed cross-chain transfer flow of the
AlphaOFT / AlphaTokenCrossChainManager contracts.

The `ComposeMsg` library is embedded at byte level: `abi.encode` of the
tuple `(address, MessageType, bytes)` is modelled as head words plus a
32-byte-padded tail, and `abi.decode` is modelled with the checks the
Solidity 0.8 ABI decoder performs (head size, address cleanup, enum range,
offset and length bounds).  The LayerZero transport and the
`OFTComposeMsgCodec` envelope unpacking are external collaborators assumed
correct; `lzCompose` therefore takes the already-extracted envelope fields
(`caller`, originating OApp, `amountLD`, inner compose bytes) as input.
Reverts are modelled as results carrying the unchanged pre-state.
-/

set_option maxRecDepth 10000

/-- Big-endian byte list of width `k` holding the low `8 * k` bits of `n`. -/
def beBytesAux : Nat → Nat → List Nat
  | 0, _ => []
  | k + 1, n => beBytesAux k (n / 256) ++ [n % 256]

/-- One 32-byte ABI word holding `n` modulo `2 ^ 256`. -/
def beWord (n : Nat) : List Nat := beBytesAux 32 n

/-- Read the 32-byte big-endian word of `data` starting at byte offset `off`. -/
def word (data : List Nat) (off : Nat) : Nat :=
  ((data.drop off).take 32).foldl (fun acc b => acc * 256 + b) 0

/-- Replace the byte at index `i` of `data` by `b` (single-byte mutation). -/
def mutate (data : List Nat) (i b : Nat) : List Nat :=
  data.take i ++ [b] ++ data.drop (i + 1)

/-- Decoded tuple of a compose message: `(address recipient, uint8 tag, bytes additionalData)`.
The `messageType` field keeps the raw tag value; `ComposeMsg.decode` only accepts tags below 2
(`CROSS_CHAIN_SEND = 0`, `BURNT = 1`). -/
structure ComposeData where
  recipient : Nat
  messageType : Nat
  additionalData : List Nat
deriving DecidableEq

namespace ComposeMsg

/-- Model of `ComposeMsg.encode`: `abi.encode(recipient, messageType, additionalData)`. -/
def encode (recipient messageType : Nat) (additionalData : List Nat) : List Nat :=
  beWord recipient ++ beWord messageType ++ beWord 96 ++ beWord additionalData.length ++
    (additionalData ++ List.replicate ((32 - additionalData.length % 32) % 32) 0)

/-- Model of `ComposeMsg.encodeCrossChainSend`: tag `CROSS_CHAIN_SEND = 0`, empty data. -/
def encodeCrossChainSend (recipient : Nat) : List Nat :=
  encode recipient 0 []

/-- Model of `ComposeMsg.encodeBurnt`: tag `BURNT = 1`, data `abi.encode(amount)`. -/
def encodeBurnt (recipient amount : Nat) : List Nat :=
  encode recipient 1 (beWord amount)

/-- Model of `ComposeMsg.decode`, i.e. `abi.decode(data, (address, MessageType, bytes))`
with the revert conditions of the Solidity 0.8 ABI decoder: head at least 96 bytes,
address value below `2 ^ 160`, enum tag below 2, tail offset and byte-array length
at most `2 ^ 64 - 1` and inside the data.  `none` models a revert. -/
def decode (data : List Nat) : Option ComposeData :=
  if data.length < 96 then none
  else if 2 ^ 160 ≤ word data 0 then none
  else if 2 ≤ word data 32 then none
  else if 2 ^ 64 ≤ word data 64 then none
  else if data.length < word data 64 + 32 then none
  else if 2 ^ 64 ≤ word data (word data 64) then none
  else if data.length < word data 64 + 32 + word data (word data 64) then none
  else some ⟨word data 0, word data 32,
    (data.drop (word data 64 + 32)).take (word data (word data 64))⟩

/-- Model of `abi.decode(bs, (uint256))` on a byte array already held in memory. -/
def decodeUint256 (bs : List Nat) : Option Nat :=
  if bs.length < 32 then none else some (word bs 0)

/-- Failure modes of `ComposeMsg.getBurntAmount`: an ABI decoding revert
(`MalformedPayload` in the specification taxonomy) or the failed
`require(messageType == BURNT)` (`WrongMessageType`). -/
inductive CodecError where
  | MalformedPayload
  | WrongMessageType
deriving DecidableEq

/-- Result of `ComposeMsg.getBurntAmount`. -/
inductive CodecResult where
  | ok (amount : Nat)
  | err (e : CodecError)
deriving DecidableEq

/-- Model of `ComposeMsg.getBurntAmount`: decode the tuple, require tag `BURNT`,
then `abi.decode(additionalData, (uint256))`. -/
def getBurntAmount (data : List Nat) : CodecResult :=
  match decode data with
  | none => .err .MalformedPayload
  | some cd =>
    if cd.messageType = 1 then
      match decodeUint256 cd.additionalData with
      | none => .err .MalformedPayload
      | some a => .ok a
    else .err .WrongMessageType

end ComposeMsg

theorem length_beBytesAux (k n : Nat) : (beBytesAux k n).length = k := by
  induction k generalizing n with
  | zero => rfl
  | succ k ih => simp [beBytesAux, ih]

theorem length_beWord (n : Nat) : (beWord n).length = 32 :=
  length_beBytesAux 32 n

theorem foldl_beBytesAux (k n : Nat) :
    (beBytesAux k n).foldl (fun acc b => acc * 256 + b) 0 = n % 256 ^ k := by
  induction k generalizing n with
  | zero => simp [beBytesAux, Nat.mod_one]
  | succ k ih =>
    have hM : 0 < 256 ^ k := Nat.pow_pos (by omega)
    have hq : n / 256 % 256 ^ k < 256 ^ k := Nat.mod_lt _ hM
    have hr : n % 256 < 256 := Nat.mod_lt _ (by omega)
    have key : n % 256 ^ (k + 1) = n / 256 % 256 ^ k * 256 + n % 256 := by
      have h2 : n / 256 = 256 ^ k * (n / 256 / 256 ^ k) + n / 256 % 256 ^ k :=
        (Nat.div_add_mod _ _).symm
      calc n % 256 ^ (k + 1)
          = (256 * (n / 256) + n % 256) % 256 ^ (k + 1) := by rw [Nat.div_add_mod]
        _ = (256 ^ (k + 1) * (n / 256 / 256 ^ k) + (256 * (n / 256 % 256 ^ k) + n % 256))
              % 256 ^ (k + 1) := by
            conv_lhs => rw [h2]
            congr 1
            ring
        _ = (256 * (n / 256 % 256 ^ k) + n % 256) % 256 ^ (k + 1) := Nat.mul_add_mod ..
        _ = 256 * (n / 256 % 256 ^ k) + n % 256 := by
            apply Nat.mod_eq_of_lt
            have hpow : 256 ^ (k + 1) = 256 ^ k * 256 := pow_succ 256 k
            omega
        _ = n / 256 % 256 ^ k * 256 + n % 256 := by ring
    simp only [beBytesAux, List.foldl_append, ih, List.foldl_cons, List.foldl_nil, key]

theorem pow256_32 : (256 : Nat) ^ 32 = 2 ^ 256 := by norm_num

theorem foldl_beWord (n : Nat) :
    (beWord n).foldl (fun acc b => acc * 256 + b) 0 = n % 2 ^ 256 := by
  rw [beWord, foldl_beBytesAux, pow256_32]

theorem word_beWord (n : Nat) : word (beWord n) 0 = n % 2 ^ 256 := by
  rw [word, List.drop_zero, List.take_of_length_le (by rw [length_beWord]), foldl_beWord]

theorem word_beWord_append (n : Nat) (rest : List Nat) :
    word (beWord n ++ rest) 0 = n % 2 ^ 256 := by
  rw [word, List.drop_zero, List.take_left' (length_beWord n), foldl_beWord]

theorem drop_slot (x : Nat) (rest : List Nat) (k : Nat) :
    (beWord x ++ rest).drop (32 + k) = rest.drop k := by
  rw [← List.drop_drop, List.drop_left' (length_beWord x)]

theorem word_slot (x : Nat) (rest : List Nat) (k : Nat) :
    word (beWord x ++ rest) (32 + k) = word rest k := by
  rw [word, drop_slot, word]

theorem word_take (data : List Nat) (off k : Nat) (h : off + 32 ≤ k) :
    word (data.take k) off = word data off := by
  rw [word, List.drop_take, List.take_take, word]
  congr 2
  omega

theorem word_append (data extra : List Nat) (off : Nat) (h : off + 32 ≤ data.length) :
    word (data ++ extra) off = word data off := by
  rw [word, List.drop_append_of_le_length (by omega),
    List.take_append_of_le_length (by simp; omega), word]

theorem decode_encode_append (r t : Nat) (aux extra : List Nat)
    (hr : r < 2 ^ 160) (ht : t < 2) (h32 : aux.length % 32 = 0) (h64 : aux.length < 2 ^ 64) :
    ComposeMsg.decode (ComposeMsg.encode r t aux ++ extra) = some ⟨r, t, aux⟩ := by
  have hpad : (32 - aux.length % 32) % 32 = 0 := by rw [h32]
  have he : ComposeMsg.encode r t aux ++ extra
      = beWord r ++ (beWord t ++ (beWord 96 ++ (beWord aux.length ++ (aux ++ extra)))) := by
    simp [ComposeMsg.encode, hpad, List.append_assoc]
  rw [he]
  have hlen : (beWord r ++ (beWord t ++ (beWord 96 ++ (beWord aux.length ++ (aux ++ extra))))).length
      = 128 + (aux.length + extra.length) := by
    simp [length_beWord]
    omega
  have w0 : word (beWord r ++ (beWord t ++ (beWord 96 ++ (beWord aux.length ++ (aux ++ extra))))) 0
      = r := by
    rw [word_beWord_append, Nat.mod_eq_of_lt (lt_of_lt_of_le hr (by norm_num))]
  have w32 : word (beWord r ++ (beWord t ++ (beWord 96 ++ (beWord aux.length ++ (aux ++ extra))))) 32
      = t := by
    have h1 := word_slot r (beWord t ++ (beWord 96 ++ (beWord aux.length ++ (aux ++ extra)))) 0
    norm_num at h1
    rw [h1, word_beWord_append, Nat.mod_eq_of_lt (lt_of_lt_of_le ht (by norm_num))]
  have w64 : word (beWord r ++ (beWord t ++ (beWord 96 ++ (beWord aux.length ++ (aux ++ extra))))) 64
      = 96 := by
    have h1 := word_slot r (beWord t ++ (beWord 96 ++ (beWord aux.length ++ (aux ++ extra)))) 32
    have h2 := word_slot t (beWord 96 ++ (beWord aux.length ++ (aux ++ extra))) 0
    norm_num at h1 h2
    rw [h1, h2, word_beWord_append]
    norm_num
  have w96 : word (beWord r ++ (beWord t ++ (beWord 96 ++ (beWord aux.length ++ (aux ++ extra))))) 96
      = aux.length := by
    have h1 := word_slot r (beWord t ++ (beWord 96 ++ (beWord aux.length ++ (aux ++ extra)))) 64
    have h2 := word_slot t (beWord 96 ++ (beWord aux.length ++ (aux ++ extra))) 32
    have h3 := word_slot 96 (beWord aux.length ++ (aux ++ extra)) 0
    norm_num at h1 h2 h3
    rw [h1, h2, h3, word_beWord_append, Nat.mod_eq_of_lt (lt_of_lt_of_le h64 (by norm_num))]
  have hdrop : (beWord r ++ (beWord t ++ (beWord 96 ++ (beWord aux.length ++ (aux ++ extra))))).drop 128
      = aux ++ extra := by
    have h1 := drop_slot r (beWord t ++ (beWord 96 ++ (beWord aux.length ++ (aux ++ extra)))) 96
    have h2 := drop_slot t (beWord 96 ++ (beWord aux.length ++ (aux ++ extra))) 64
    have h3 := drop_slot 96 (beWord aux.length ++ (aux ++ extra)) 32
    have h4 := drop_slot aux.length (aux ++ extra) 0
    norm_num at h1 h2 h3 h4
    rw [h1, h2, h3, h4]
  have h128 : (96 : Nat) + 32 = 128 := by norm_num
  simp only [ComposeMsg.decode, hlen, w0, w32, w64, w96, h128, hdrop, List.take_left]
  split_ifs with h1 h2 h3 h4 h5 h6 h7
  · omega
  · omega
  · omega
  · omega
  · omega
  · omega
  · omega
  · rfl

theorem decode_encode (r t : Nat) (aux : List Nat)
    (hr : r < 2 ^ 160) (ht : t < 2) (h32 : aux.length % 32 = 0) (h64 : aux.length < 2 ^ 64) :
    ComposeMsg.decode (ComposeMsg.encode r t aux) = some ⟨r, t, aux⟩ := by
  have h := decode_encode_append r t aux [] hr ht h32 h64
  rwa [List.append_nil] at h

theorem decode_encodeBurnt (r a : Nat) (hr : r < 2 ^ 160) :
    ComposeMsg.decode (ComposeMsg.encodeBurnt r a) = some ⟨r, 1, beWord a⟩ :=
  decode_encode r 1 (beWord a) hr (by omega) (by rw [length_beWord]) (by rw [length_beWord]; norm_num)

theorem decode_encodeCrossChainSend (r : Nat) (hr : r < 2 ^ 160) :
    ComposeMsg.decode (ComposeMsg.encodeCrossChainSend r) = some ⟨r, 0, []⟩ :=
  decode_encode r 0 [] hr (by omega) (by simp) (by norm_num)

theorem decodeUint256_beWord (a : Nat) (ha : a < 2 ^ 256) :
    ComposeMsg.decodeUint256 (beWord a) = some a := by
  rw [ComposeMsg.decodeUint256, if_neg (by rw [length_beWord]; omega), word_beWord,
    Nat.mod_eq_of_lt ha]

theorem getBurntAmount_encodeBurnt (r a : Nat) (hr : r < 2 ^ 160) (ha : a < 2 ^ 256) :
    ComposeMsg.getBurntAmount (ComposeMsg.encodeBurnt r a) = .ok a := by
  rw [ComposeMsg.getBurntAmount, decode_encodeBurnt r a hr]
  simp [decodeUint256_beWord a ha]

theorem getBurntAmount_encodeCrossChainSend (r : Nat) (hr : r < 2 ^ 160) :
    ComposeMsg.getBurntAmount (ComposeMsg.encodeCrossChainSend r) = .err .WrongMessageType := by
  rw [ComposeMsg.getBurntAmount, decode_encodeCrossChainSend r hr]
  simp

/-! State of the `AlphaTokenCrossChainManager` contract (the Receiver): the fields read
and written by `lzCompose` and the owner-gated setters, plus the proxy owner. -/

structure ManagerState where
  endpoint : Nat
  trustedOFT : Nat
  totalProcessed : Nat
  paused : Bool
  owner : Nat
deriving DecidableEq

/-- Inbound envelope as seen by `lzCompose` after the (external, trusted)
`OFTComposeMsgCodec` unpacking: the transport caller (`msg.sender`), the originating
OApp address, and the decoded nonce, source chain, delivered amount, compose-from
identifier and inner compose payload. -/
structure Envelope where
  caller : Nat
  oApp : Nat
  nonce : Nat
  srcEid : Nat
  amountLD : Nat
  composeFrom : Nat
  composeMsg : List Nat
deriving DecidableEq

/-- Revert causes of `lzCompose`.  `MalformedPayload` stands for the ABI-decoder
panics of `ComposeMsg.decode` / the auxiliary `abi.decode`; `Overflow` for the
checked-arithmetic panic of `totalProcessed += amountLD`. -/
inductive LzError where
  | ContractPaused
  | UnauthorizedSender
  | UntrustedOApp
  | MalformedPayload
  | UnsupportedMessageType
  | Overflow
deriving DecidableEq

/-- Outcome of one `lzCompose` invocation: either success with the post-state and the
single `safeTransfer(recipient, amount)` performed, or a revert carrying the unchanged
pre-state (no transfer, no state change). -/
inductive LzResult where
  | ok (s : ManagerState) (recipient : Nat) (amount : Nat)
  | err (s : ManagerState) (e : LzError)
deriving DecidableEq

/-- Model of `AlphaTokenCrossChainManager.lzCompose`: pause gate, transport check,
origin check, payload decode, branch on the message tag, transfer of `amountLD`,
and the `totalProcessed` update. -/
def lzCompose (s : ManagerState) (env : Envelope) : LzResult :=
  if s.paused then .err s .ContractPaused
  else if env.caller ≠ s.endpoint then .err s .UnauthorizedSender
  else if env.oApp ≠ s.trustedOFT then .err s .UntrustedOApp
  else
    match ComposeMsg.decode env.composeMsg with
    | none => .err s .MalformedPayload
    | some cd =>
      if cd.messageType = 0 then
        if s.totalProcessed + env.amountLD < 2 ^ 256 then
          .ok { s with totalProcessed := s.totalProcessed + env.amountLD }
            cd.recipient env.amountLD
        else .err s .Overflow
      else if cd.messageType = 1 then
        match ComposeMsg.decodeUint256 cd.additionalData with
        | none => .err s .MalformedPayload
        | some _burnt =>
          if s.totalProcessed + env.amountLD < 2 ^ 256 then
            .ok { s with totalProcessed := s.totalProcessed + env.amountLD }
              cd.recipient env.amountLD
          else .err s .Overflow
      else .err s .UnsupportedMessageType

/-- Outcome of an owner-gated administrative call. -/
inductive AdminResult where
  | ok (s : ManagerState)
  | err
deriving DecidableEq

/-- Model of `AlphaTokenCrossChainManager.setPaused` (`onlyOwner`). -/
def setPaused (s : ManagerState) (caller : Nat) (p : Bool) : AdminResult :=
  if caller ≠ s.owner then .err else .ok { s with paused := p }

/-! State of the `AlphaOFT` contract as far as `sendComposed` / `quoteSendComposed`
read it: the owner, the LayerZero peer table and the registered cross-chain managers. -/

structure OFTState where
  owner : Nat
  peers : Nat → Nat
  crossChainManagers : Nat → Nat

/-- The LayerZero `SendParam` struct built by `quoteSendComposed` and `_sendComposed`. -/
structure SendParam where
  dstEid : Nat
  toAddr : Nat
  amountLD : Nat
  minAmountLD : Nat
  extraOptions : List Nat
  composeMsg : List Nat
  oftCmd : List Nat
deriving DecidableEq

/-- Revert causes of `sendComposed` / `quoteSendComposed`.  `Unauthorized` models the
`onlyOwner` revert (`OwnableUnauthorizedAccount`); `InvalidMessageType` the
`revert("Invalid message type")` branch. -/
inductive SendError where
  | Unauthorized
  | InvalidEndpointId
  | NoPeerConfigured
  | NoCrossChainManager
  | InvalidMessageType
deriving DecidableEq

/-- Outcome of `sendComposed` / `quoteSendComposed`: the `SendParam` handed to
`quoteSend` (and, for the send path, to `send`) together with the `payInLzToken`
flag, or a revert. -/
inductive SendResult where
  | ok (p : SendParam) (payInLzToken : Bool)
  | err (e : SendError)
deriving DecidableEq

/-- The `oftCmd: "0x"` field: the two ASCII bytes of the literal string `"0x"`. -/
def oftCmdBytes : List Nat := [48, 120]

/-- Model of the `validDestination` modifier of `AlphaOFT`, returning the revert
cause it raises, if any, in source order. -/
def validDestination (s : OFTState) (dstEid : Nat) : Option SendError :=
  if dstEid = 0 then some .InvalidEndpointId
  else if s.peers dstEid = 0 then some .NoPeerConfigured
  else if s.crossChainManagers dstEid = 0 then some .NoCrossChainManager
  else none

/-- Model of `AlphaOFT.quoteSendComposed` (no owner check, `validDestination`,
compose-message encoding by tag, `SendParam` construction, `quoteSend`). -/
def quoteSendComposed (s : OFTState) (toAddr amount dstEid messageType : Nat)
    (payInLzToken : Bool) (extraOptions : List Nat) : SendResult :=
  match validDestination s dstEid with
  | some e => .err e
  | none =>
    if messageType = 0 then
      .ok ⟨dstEid, s.crossChainManagers dstEid, amount, amount, extraOptions,
        ComposeMsg.encodeCrossChainSend toAddr, oftCmdBytes⟩ payInLzToken
    else if messageType = 1 then
      .ok ⟨dstEid, s.crossChainManagers dstEid, amount, amount, extraOptions,
        ComposeMsg.encodeBurnt toAddr amount, oftCmdBytes⟩ payInLzToken
    else .err .InvalidMessageType

/-- Model of `AlphaOFT._sendComposed` (`validDestination`, compose-message encoding
by tag, `SendParam` construction, `quoteSend` then `send` on that same request). -/
def sendComposedInternal (s : OFTState) (toAddr amount dstEid messageType : Nat)
    (payInLzToken : Bool) (extraOptions : List Nat) : SendResult :=
  match validDestination s dstEid with
  | some e => .err e
  | none =>
    if messageType = 0 then
      .ok ⟨dstEid, s.crossChainManagers dstEid, amount, amount, extraOptions,
        ComposeMsg.encodeCrossChainSend toAddr, oftCmdBytes⟩ payInLzToken
    else if messageType = 1 then
      .ok ⟨dstEid, s.crossChainManagers dstEid, amount, amount, extraOptions,
        ComposeMsg.encodeBurnt toAddr amount, oftCmdBytes⟩ payInLzToken
    else .err .InvalidMessageType

/-- Model of the external `AlphaOFT.sendComposed` (`onlyOwner`, then `_sendComposed`). -/
def sendComposed (s : OFTState) (caller toAddr amount dstEid messageType : Nat)
    (payInLzToken : Bool) (extraOptions : List Nat) : SendResult :=
  if caller ≠ s.owner then .err .Unauthorized
  else sendComposedInternal s toAddr amount dstEid messageType payInLzToken extraOptions

theorem lzCompose_paused (s : ManagerState) (env : Envelope) (hp : s.paused = true) :
    lzCompose s env = .err s .ContractPaused := by
  simp [lzCompose, hp]

theorem lzCompose_ccs_ok (s : ManagerState) (env : Envelope) (r : Nat) (aux : List Nat)
    (hp : s.paused = false) (hc : env.caller = s.endpoint) (ho : env.oApp = s.trustedOFT)
    (hd : ComposeMsg.decode env.composeMsg = some ⟨r, 0, aux⟩)
    (hov : s.totalProcessed + env.amountLD < 2 ^ 256) :
    lzCompose s env
      = .ok { s with totalProcessed := s.totalProcessed + env.amountLD } r env.amountLD := by
  simp [lzCompose, hp, hc, ho, hd]
  omega

theorem lzCompose_burnt_ok (s : ManagerState) (env : Envelope) (r b : Nat) (aux : List Nat)
    (hp : s.paused = false) (hc : env.caller = s.endpoint) (ho : env.oApp = s.trustedOFT)
    (hd : ComposeMsg.decode env.composeMsg = some ⟨r, 1, aux⟩)
    (hb : ComposeMsg.decodeUint256 aux = some b)
    (hov : s.totalProcessed + env.amountLD < 2 ^ 256) :
    lzCompose s env
      = .ok { s with totalProcessed := s.totalProcessed + env.amountLD } r env.amountLD := by
  simp [lzCompose, hp, hc, ho, hd, hb]
  omega

theorem lzCompose_ok_inv (s : ManagerState) (env : Envelope) (s' : ManagerState)
    (rec amt : Nat) (h : lzCompose s env = .ok s' rec amt) :
    amt = env.amountLD ∧ s'.totalProcessed = s.totalProcessed + env.amountLD := by
  unfold lzCompose at h
  repeat' split at h
  all_goals simp_all
  all_goals obtain ⟨h1, h2, h3⟩ := h
  all_goals subst h1
  all_goals simp [h3]

theorem encodeBurnt_eq (r a : Nat) :
    ComposeMsg.encodeBurnt r a
      = beWord r ++ (beWord 1 ++ (beWord 96 ++ (beWord 32 ++ beWord a))) := by
  simp [ComposeMsg.encodeBurnt, ComposeMsg.encode, length_beWord, Nat.mod_self]

theorem length_encodeBurnt (r a : Nat) : (ComposeMsg.encodeBurnt r a).length = 160 := by
  rw [encodeBurnt_eq]
  simp [length_beWord]

theorem word0_encodeBurnt (r a : Nat) (hr : r < 2 ^ 160) :
    word (ComposeMsg.encodeBurnt r a) 0 = r := by
  rw [encodeBurnt_eq, word_beWord_append, Nat.mod_eq_of_lt (by omega)]

theorem word32_encodeBurnt (r a : Nat) : word (ComposeMsg.encodeBurnt r a) 32 = 1 := by
  rw [encodeBurnt_eq]
  have h1 := word_slot r (beWord 1 ++ (beWord 96 ++ (beWord 32 ++ beWord a))) 0
  norm_num at h1
  rw [h1, word_beWord_append]
  norm_num

theorem word64_encodeBurnt (r a : Nat) : word (ComposeMsg.encodeBurnt r a) 64 = 96 := by
  rw [encodeBurnt_eq]
  have h1 := word_slot r (beWord 1 ++ (beWord 96 ++ (beWord 32 ++ beWord a))) 32
  have h2 := word_slot 1 (beWord 96 ++ (beWord 32 ++ beWord a)) 0
  norm_num at h1 h2
  rw [h1, h2, word_beWord_append]
  norm_num

theorem word96_encodeBurnt (r a : Nat) : word (ComposeMsg.encodeBurnt r a) 96 = 32 := by
  rw [encodeBurnt_eq]
  have h1 := word_slot r (beWord 1 ++ (beWord 96 ++ (beWord 32 ++ beWord a))) 64
  have h2 := word_slot 1 (beWord 96 ++ (beWord 32 ++ beWord a)) 32
  have h3 := word_slot 96 (beWord 32 ++ beWord a) 0
  norm_num at h1 h2 h3
  rw [h1, h2, h3, word_beWord_append]
  norm_num

theorem decode_truncated_encodeBurnt (r a : Nat) (hr : r < 2 ^ 160) (k : Nat) (hk : k < 160) :
    ComposeMsg.decode ((ComposeMsg.encodeBurnt r a).take k) = none := by
  have hlen : ((ComposeMsg.encodeBurnt r a).take k).length = k := by
    rw [List.length_take, length_encodeBurnt]
    omega
  rw [ComposeMsg.decode, hlen]
  by_cases h96 : k < 96
  · rw [if_pos h96]
  · have t0 : word ((ComposeMsg.encodeBurnt r a).take k) 0 = r := by
      rw [word_take _ _ _ (by omega), word0_encodeBurnt r a hr]
    have t32 : word ((ComposeMsg.encodeBurnt r a).take k) 32 = 1 := by
      rw [word_take _ _ _ (by omega), word32_encodeBurnt]
    have t64 : word ((ComposeMsg.encodeBurnt r a).take k) 64 = 96 := by
      rw [word_take _ _ _ (by omega), word64_encodeBurnt]
    rw [t0, t32, t64, if_neg (by omega), if_neg (by omega), if_neg (by omega), if_neg (by omega)]
    by_cases h128 : k < 128
    · rw [if_pos (by omega)]
    · have t96 : word ((ComposeMsg.encodeBurnt r a).take k) 96 = 32 := by
        rw [word_take _ _ _ (by omega), word96_encodeBurnt]
      rw [if_neg (by omega), t96, if_neg (by omega), if_pos (by omega)]

theorem beWord_zero_eq : beWord 0 = beBytesAux 31 0 ++ [0] := by decide

theorem take31_beWord_one : (beWord 1).take 31 = beBytesAux 31 0 := by decide

theorem mutate_tag_encodeBurnt (r a : Nat) :
    mutate (ComposeMsg.encodeBurnt r a) 63 0 = ComposeMsg.encode r 0 (beWord a) := by
  have henc : ComposeMsg.encode r 0 (beWord a)
      = beWord r ++ (beWord 0 ++ (beWord 96 ++ (beWord 32 ++ beWord a))) := by
    simp [ComposeMsg.encode, length_beWord, Nat.mod_self]
  rw [mutate, encodeBurnt_eq, henc]
  have htake : (beWord r ++ (beWord 1 ++ (beWord 96 ++ (beWord 32 ++ beWord a)))).take 63
      = beWord r ++ (beWord 1).take 31 := by
    rw [List.take_append_eq_append_take, List.take_of_length_le (by rw [length_beWord]; omega),
      length_beWord, List.take_append_eq_append_take, length_beWord]
    norm_num
  have hdrop : (beWord r ++ (beWord 1 ++ (beWord 96 ++ (beWord 32 ++ beWord a)))).drop 64
      = beWord 96 ++ (beWord 32 ++ beWord a) := by
    have h1 := drop_slot r (beWord 1 ++ (beWord 96 ++ (beWord 32 ++ beWord a))) 32
    have h2 := drop_slot 1 (beWord 96 ++ (beWord 32 ++ beWord a)) 0
    norm_num at h1 h2
    rw [h1, h2]
  rw [htake, hdrop, take31_beWord_one, beWord_zero_eq]
  simp [List.append_assoc]

theorem encodeCrossChainSend_eq (r : Nat) :
    ComposeMsg.encodeCrossChainSend r
      = beWord r ++ (beWord 0 ++ (beWord 96 ++ beWord 0)) := by
  simp [ComposeMsg.encodeCrossChainSend, ComposeMsg.encode]

theorem length_encodeCrossChainSend (r : Nat) :
    (ComposeMsg.encodeCrossChainSend r).length = 128 := by
  rw [encodeCrossChainSend_eq]
  simp [length_beWord]

theorem word0_encodeCrossChainSend (r : Nat) (hr : r < 2 ^ 160) :
    word (ComposeMsg.encodeCrossChainSend r) 0 = r := by
  rw [encodeCrossChainSend_eq, word_beWord_append, Nat.mod_eq_of_lt (by omega)]

theorem word32_encodeCrossChainSend (r : Nat) :
    word (ComposeMsg.encodeCrossChainSend r) 32 = 0 := by
  rw [encodeCrossChainSend_eq]
  have h1 := word_slot r (beWord 0 ++ (beWord 96 ++ beWord 0)) 0
  norm_num at h1
  rw [h1, word_beWord_append]
  norm_num

theorem word64_encodeCrossChainSend (r : Nat) :
    word (ComposeMsg.encodeCrossChainSend r) 64 = 96 := by
  rw [encodeCrossChainSend_eq]
  have h1 := word_slot r (beWord 0 ++ (beWord 96 ++ beWord 0)) 32
  have h2 := word_slot 0 (beWord 96 ++ beWord 0) 0
  norm_num at h1 h2
  rw [h1, h2, word_beWord_append]
  norm_num

theorem decode_truncated_encodeCrossChainSend (r : Nat) (hr : r < 2 ^ 160)
    (k : Nat) (hk : k < 128) :
    ComposeMsg.decode ((ComposeMsg.encodeCrossChainSend r).take k) = none := by
  have hlen : ((ComposeMsg.encodeCrossChainSend r).take k).length = k := by
    rw [List.length_take, length_encodeCrossChainSend]
    omega
  rw [ComposeMsg.decode, hlen]
  by_cases h96 : k < 96
  · rw [if_pos h96]
  · have t0 : word ((ComposeMsg.encodeCrossChainSend r).take k) 0 = r := by
      rw [word_take _ _ _ (by omega), word0_encodeCrossChainSend r hr]
    have t32 : word ((ComposeMsg.encodeCrossChainSend r).take k) 32 = 0 := by
      rw [word_take _ _ _ (by omega), word32_encodeCrossChainSend]
    have t64 : word ((ComposeMsg.encodeCrossChainSend r).take k) 64 = 96 := by
      rw [word_take _ _ _ (by omega), word64_encodeCrossChainSend]
    rw [t0, t32, t64, if_neg (by omega), if_neg (by omega), if_neg (by omega),
      if_neg (by omega), if_pos (by omega)]

theorem take31_beWord_zero : (beWord 0).take 31 = beBytesAux 31 0 := by decide

theorem beWord_one_eq : beWord 1 = beBytesAux 31 0 ++ [1] := by decide

theorem mutate_tag_encodeCrossChainSend (r : Nat) :
    mutate (ComposeMsg.encodeCrossChainSend r) 63 1 = ComposeMsg.encode r 1 [] := by
  have henc : ComposeMsg.encode r 1 []
      = beWord r ++ (beWord 1 ++ (beWord 96 ++ beWord 0)) := by
    simp [ComposeMsg.encode]
  rw [mutate, encodeCrossChainSend_eq, henc]
  have htake : (beWord r ++ (beWord 0 ++ (beWord 96 ++ beWord 0))).take 63
      = beWord r ++ (beWord 0).take 31 := by
    rw [List.take_append_eq_append_take, List.take_of_length_le (by rw [length_beWord]; omega),
      length_beWord, List.take_append_eq_append_take, length_beWord]
    norm_num
  have hdrop : (beWord r ++ (beWord 0 ++ (beWord 96 ++ beWord 0))).drop 64
      = beWord 96 ++ beWord 0 := by
    have h1 := drop_slot r (beWord 0 ++ (beWord 96 ++ beWord 0)) 32
    have h2 := drop_slot 0 (beWord 96 ++ beWord 0) 0
    norm_num at h1 h2
    rw [h1, h2]
  rw [htake, hdrop, take31_beWord_zero, beWord_one_eq]
  simp [List.append_assoc]

theorem sendComposed_burnt_inv (s : OFTState) (toAddr amount dstEid : Nat)
    (payInLzToken : Bool) (extraOptions : List Nat) (p : SendParam) (b : Bool)
    (h : sendComposed s s.owner toAddr amount dstEid 1 payInLzToken extraOptions = .ok p b) :
    p = ⟨dstEid, s.crossChainManagers dstEid, amount, amount, extraOptions,
      ComposeMsg.encodeBurnt toAddr amount, oftCmdBytes⟩ ∧ b = payInLzToken := by
  unfold sendComposed sendComposedInternal at h
  rw [if_neg (by simp)] at h
  split at h
  · exact absurd h (by simp)
  · simp at h
    exact ⟨h.1.symm, h.2.symm⟩

/-- C1: while the Receiver is not paused, `lzCompose` performs the transport check
first (`UnauthorizedSender` when the caller is not the trusted endpoint, whatever the
payload) and the origin check second (`UntrustedOApp`, the code's name for the
specification's `UntrustedOrigin`, when the transport is right but the originating
OApp is not the trusted OFT); both failures revert with the pre-state unchanged —
no transfer, `totalProcessed` untouched. -/
theorem c1_ordered_auth_checks (s : ManagerState) (env : Envelope) (hp : s.paused = false) :
    (env.caller ≠ s.endpoint → lzCompose s env = .err s .UnauthorizedSender) ∧
    (env.caller = s.endpoint → env.oApp ≠ s.trustedOFT →
      lzCompose s env = .err s .UntrustedOApp) := by
  constructor
  · intro h
    simp [lzCompose, hp, h]
  · intro hc h
    simp [lzCompose, hp, hc, h]

/-- C1 witness: a wrong transport caller and a wrong originating OApp on an
otherwise valid `CROSS_CHAIN_SEND` envelope, at concrete values. -/
theorem c1_ordered_auth_checks_witness :
    lzCompose ⟨10, 11, 0, false, 12⟩ ⟨99, 11, 1, 40161, 100, 7, ComposeMsg.encodeCrossChainSend 1⟩
      = .err ⟨10, 11, 0, false, 12⟩ .UnauthorizedSender ∧
    lzCompose ⟨10, 11, 0, false, 12⟩ ⟨10, 99, 1, 40161, 100, 7, ComposeMsg.encodeCrossChainSend 1⟩
      = .err ⟨10, 11, 0, false, 12⟩ .UntrustedOApp :=
  ⟨(c1_ordered_auth_checks _ _ rfl).1 (by decide),
   (c1_ordered_auth_checks _ _ rfl).2 rfl (by decide)⟩

/-- C2: while paused, every `lzCompose` invocation reverts with `ContractPaused` and
the state is unchanged; the owner's `setPaused false` succeeds, and the identical
envelope (valid `CROSS_CHAIN_SEND`) then succeeds with `totalProcessed` increased by
exactly the envelope's delivered amount. -/
theorem c2_pause_then_unpause (s : ManagerState) (env : Envelope) (r : Nat) (aux : List Nat)
    (hp : s.paused = true)
    (hc : env.caller = s.endpoint) (ho : env.oApp = s.trustedOFT)
    (hd : ComposeMsg.decode env.composeMsg = some ⟨r, 0, aux⟩)
    (hov : s.totalProcessed + env.amountLD < 2 ^ 256) :
    (∀ env2 : Envelope, lzCompose s env2 = .err s .ContractPaused) ∧
    setPaused s s.owner false = .ok { s with paused := false } ∧
    lzCompose { s with paused := false } env =
      .ok { s with paused := false, totalProcessed := s.totalProcessed + env.amountLD }
        r env.amountLD := by
  refine ⟨fun env2 => lzCompose_paused s env2 hp, by simp [setPaused], ?_⟩
  exact lzCompose_ccs_ok _ env r aux rfl hc ho hd hov

/-- C2 witness: pause blocks a valid 100-token `CROSS_CHAIN_SEND` envelope, unpausing
restores acceptance and `totalProcessed` grows from 0 to 100. -/
theorem c2_pause_then_unpause_witness :
    (∀ env2 : Envelope, lzCompose ⟨10, 11, 0, true, 12⟩ env2
      = .err ⟨10, 11, 0, true, 12⟩ .ContractPaused) ∧
    setPaused ⟨10, 11, 0, true, 12⟩ 12 false = .ok ⟨10, 11, 0, false, 12⟩ ∧
    lzCompose ⟨10, 11, 0, false, 12⟩ ⟨10, 11, 1, 40161, 100, 7, ComposeMsg.encodeCrossChainSend 1⟩
      = .ok ⟨10, 11, 100, false, 12⟩ 1 100 :=
  c2_pause_then_unpause ⟨10, 11, 0, true, 12⟩
    ⟨10, 11, 1, 40161, 100, 7, ComposeMsg.encodeCrossChainSend 1⟩ 1 [] rfl rfl rfl
    (by decide) (by decide)

/-- C3 counterexample: a hand-crafted payload whose tag slot holds 2 (outside {0,1})
makes `lzCompose` revert at `ComposeMsg.decode` — the ABI decoder validates the enum
range — so the failure is the decode revert (`MalformedPayload` in the spec taxonomy),
not `UnsupportedMessageType`; no funds are moved either way. -/
theorem c3_unsupported_tag_counterexample :
    lzCompose ⟨10, 11, 0, false, 12⟩ ⟨10, 11, 1, 40161, 100, 7, ComposeMsg.encode 1 2 []⟩
      = .err ⟨10, 11, 0, false, 12⟩ .MalformedPayload ∧
    lzCompose ⟨10, 11, 0, false, 12⟩ ⟨10, 11, 1, 40161, 100, 7, ComposeMsg.encode 1 2 []⟩
      ≠ .err ⟨10, 11, 0, false, 12⟩ .UnsupportedMessageType := by
  constructor
  · decide
  · decide

/-- C3 amended: a compose payload whose tag word (bytes 32..63) is outside {0,1} is
rejected by the ABI decoder inside `ComposeMsg.decode`, so `lzCompose` fails with the
decode revert (`MalformedPayload`) and moves no funds; the `UnsupportedMessageType`
branch is unreachable for such payloads. -/
theorem c3_amended_tag_rejected_at_decode (s : ManagerState) (env : Envelope)
    (hp : s.paused = false) (hc : env.caller = s.endpoint) (ho : env.oApp = s.trustedOFT)
    (ht : 2 ≤ word env.composeMsg 32) :
    lzCompose s env = .err s .MalformedPayload := by
  have hdec : ComposeMsg.decode env.composeMsg = none := by
    rw [ComposeMsg.decode]
    split_ifs <;> rfl
  simp [lzCompose, hp, hc, ho, hdec]

/-- C3 amended witness: the tag-2 payload at concrete values. -/
theorem c3_amended_tag_rejected_at_decode_witness :
    lzCompose ⟨10, 11, 0, false, 12⟩ ⟨10, 11, 1, 40161, 100, 7, ComposeMsg.encode 1 2 []⟩
      = .err ⟨10, 11, 0, false, 12⟩ .MalformedPayload :=
  c3_amended_tag_rejected_at_decode ⟨10, 11, 0, false, 12⟩
    ⟨10, 11, 1, 40161, 100, 7, ComposeMsg.encode 1 2 []⟩ rfl rfl rfl (by decide)

/-- C4: a successfully processed `BURNT` message transfers exactly the envelope's
delivered `amountLD` to the payload recipient — the embedded burnt amount `b` does
not appear in the transfer — and every successful `lzCompose`, for either tag,
transfers `amountLD` and increments `totalProcessed` by exactly `amountLD`. -/
theorem c4_burnt_transfers_delivered (s : ManagerState) (env : Envelope) (r b : Nat)
    (aux : List Nat) (hp : s.paused = false) (hc : env.caller = s.endpoint)
    (ho : env.oApp = s.trustedOFT)
    (hd : ComposeMsg.decode env.composeMsg = some ⟨r, 1, aux⟩)
    (hb : ComposeMsg.decodeUint256 aux = some b)
    (hov : s.totalProcessed + env.amountLD < 2 ^ 256) :
    lzCompose s env
      = .ok { s with totalProcessed := s.totalProcessed + env.amountLD } r env.amountLD ∧
    (∀ (s0 : ManagerState) (env2 : Envelope) (s' : ManagerState) (rec amt : Nat),
      lzCompose s0 env2 = .ok s' rec amt →
      amt = env2.amountLD ∧ s'.totalProcessed = s0.totalProcessed + env2.amountLD) :=
  ⟨lzCompose_burnt_ok s env r b aux hp hc ho hd hb hov,
   fun s0 env2 s' rec amt h => lzCompose_ok_inv s0 env2 s' rec amt h⟩

/-- C4 witness: a `BURNT` envelope with delivered amount 100 and embedded burnt
amount 55 transfers 100, not 55. -/
theorem c4_burnt_transfers_delivered_witness :
    lzCompose ⟨10, 11, 0, false, 12⟩ ⟨10, 11, 1, 40161, 100, 7, ComposeMsg.encodeBurnt 1 55⟩
      = .ok ⟨10, 11, 100, false, 12⟩ 1 100 ∧
    (∀ (s0 : ManagerState) (env2 : Envelope) (s' : ManagerState) (rec amt : Nat),
      lzCompose s0 env2 = .ok s' rec amt →
      amt = env2.amountLD ∧ s'.totalProcessed = s0.totalProcessed + env2.amountLD) :=
  c4_burnt_transfers_delivered ⟨10, 11, 0, false, 12⟩
    ⟨10, 11, 1, 40161, 100, 7, ComposeMsg.encodeBurnt 1 55⟩ 1 55 (beWord 55) rfl rfl rfl
    (by decide) (by decide) (by decide)

/-- C5 counterexample (negation of the claim): in `sendComposed` with `messageType =
BURNT` there is no separately supplied burnt quantity — the same `amount` argument is
both the token amount of the send request and the embedded auxiliary amount, so no
invocation produces an embedded burnt amount different from the amount sent. -/
theorem c5_separate_burnt_amount_counterexample :
    ¬ ∃ (s : OFTState) (toAddr amount dstEid : Nat) (payInLzToken : Bool)
        (extraOptions : List Nat) (p : SendParam) (b : Bool),
      toAddr < 2 ^ 160 ∧ amount < 2 ^ 256 ∧
      sendComposed s s.owner toAddr amount dstEid 1 payInLzToken extraOptions = .ok p b ∧
      ComposeMsg.getBurntAmount p.composeMsg ≠ .ok p.amountLD := by
  rintro ⟨s, toAddr, amount, dstEid, pay, opts, p, b, hto, ha, hsend, hne⟩
  obtain ⟨hp, -⟩ := sendComposed_burnt_inv s toAddr amount dstEid pay opts p b hsend
  subst hp
  exact hne (getBurntAmount_encodeBurnt toAddr amount hto ha)

/-- C5 amended: in `sendComposed` the `amount` parameter is the token amount of the
outer send request, and for `messageType = BURNT` that same `amount` is what
`encodeBurnt` embeds as the auxiliary burnt quantity — the two are always equal. -/
theorem c5_amended_embedded_equals_sent (s : OFTState) (toAddr amount dstEid : Nat)
    (payInLzToken : Bool) (extraOptions : List Nat) (p : SendParam) (b : Bool)
    (hto : toAddr < 2 ^ 160) (ha : amount < 2 ^ 256)
    (h : sendComposed s s.owner toAddr amount dstEid 1 payInLzToken extraOptions = .ok p b) :
    p.amountLD = amount ∧ ComposeMsg.getBurntAmount p.composeMsg = .ok amount := by
  obtain ⟨hp, -⟩ := sendComposed_burnt_inv s toAddr amount dstEid payInLzToken extraOptions p b h
  subst hp
  exact ⟨rfl, getBurntAmount_encodeBurnt toAddr amount hto ha⟩

/-- C5 amended witness: a concrete owner-invoked `BURNT` send of amount 2 embeds
burnt amount 2. -/
theorem c5_amended_embedded_equals_sent_witness :
    (⟨30, 3, 2, 2, [], ComposeMsg.encodeBurnt 1 2, oftCmdBytes⟩ : SendParam).amountLD = 2 ∧
    ComposeMsg.getBurntAmount
      (⟨30, 3, 2, 2, [], ComposeMsg.encodeBurnt 1 2, oftCmdBytes⟩ : SendParam).composeMsg
      = .ok 2 :=
  c5_amended_embedded_equals_sent ⟨7, fun _ => 1, fun _ => 3⟩ 1 2 30 false []
    ⟨30, 3, 2, 2, [], ComposeMsg.encodeBurnt 1 2, oftCmdBytes⟩ false
    (by decide) (by decide) (by decide)

/-- C6: `BURNT` round-trip — for every address-sized recipient and uint256 amount,
decoding `encodeBurnt recipient amount` returns the recipient (with tag `BURNT` and
the 32-byte big-endian amount as auxiliary data), and `getBurntAmount` returns the
amount. -/
theorem c6_burnt_roundtrip (r a : Nat) (hr : r < 2 ^ 160) (ha : a < 2 ^ 256) :
    ComposeMsg.decode (ComposeMsg.encodeBurnt r a) = some ⟨r, 1, beWord a⟩ ∧
    ComposeMsg.getBurntAmount (ComposeMsg.encodeBurnt r a) = .ok a :=
  ⟨decode_encodeBurnt r a hr, getBurntAmount_encodeBurnt r a hr ha⟩

/-- C6 witness: the round-trip at recipient 1, amount 2. -/
theorem c6_burnt_roundtrip_witness :
    ComposeMsg.decode (ComposeMsg.encodeBurnt 1 2) = some ⟨1, 1, beWord 2⟩ ∧
    ComposeMsg.getBurntAmount (ComposeMsg.encodeBurnt 1 2) = .ok 2 :=
  c6_burnt_roundtrip 1 2 (by decide) (by decide)

/-- C7: for every address-sized recipient, decoding `encodeCrossChainSend recipient`
yields tag `CROSS_CHAIN_SEND` with empty auxiliary data, and `getBurntAmount` on that
encoding fails with `WrongMessageType`. -/
theorem c7_ccs_roundtrip (r : Nat) (hr : r < 2 ^ 160) :
    ComposeMsg.decode (ComposeMsg.encodeCrossChainSend r) = some ⟨r, 0, []⟩ ∧
    ComposeMsg.getBurntAmount (ComposeMsg.encodeCrossChainSend r) = .err .WrongMessageType :=
  ⟨decode_encodeCrossChainSend r hr, getBurntAmount_encodeCrossChainSend r hr⟩

/-- C7 witness: the `CROSS_CHAIN_SEND` round-trip at recipient 1. -/
theorem c7_ccs_roundtrip_witness :
    ComposeMsg.decode (ComposeMsg.encodeCrossChainSend 1) = some ⟨1, 0, []⟩ ∧
    ComposeMsg.getBurntAmount (ComposeMsg.encodeCrossChainSend 1) = .err .WrongMessageType :=
  c7_ccs_roundtrip 1 (by decide)

/-- C8 counterexample: appending a byte to a valid `CROSS_CHAIN_SEND` encoding does
not fail — it decodes to the same tuple — and mutating the single tag byte (index 63)
of that encoding from 0 to 1 silently decodes to a well-formed tuple with a different
tag, refuting both the extra-length rejection and the no-type-confusion property. -/
theorem c8_decoder_totality_counterexample :
    ComposeMsg.decode (ComposeMsg.encodeCrossChainSend 1 ++ [0]) = some ⟨1, 0, []⟩ ∧
    ComposeMsg.decode (mutate (ComposeMsg.encodeCrossChainSend 1) 63 1) = some ⟨1, 1, []⟩ := by
  constructor
  · decide
  · decide

/-- C8 amended: `decode` rejects every strict-prefix truncation of a valid encoding
(both `encodeBurnt`, 160 bytes, and `encodeCrossChainSend`, 128 bytes), but an
extra-length sequence obtained by appending bytes to either encoding decodes to the
same tuple rather than failing, and a single-byte mutation of the tag byte (index 63)
of either encoding decodes to a well-formed tuple with a different tag — the decoder
is total only in the sense that truncations are rejected; trailing bytes and tag
flips are accepted. -/
theorem c8_amended_truncation_only (r a : Nat) (hr : r < 2 ^ 160) (ha : a < 2 ^ 256) :
    ((∀ k, k < 160 → ComposeMsg.decode ((ComposeMsg.encodeBurnt r a).take k) = none) ∧
     (∀ k, k < 128 → ComposeMsg.decode ((ComposeMsg.encodeCrossChainSend r).take k) = none)) ∧
    ((∀ extra, ComposeMsg.decode (ComposeMsg.encodeBurnt r a ++ extra)
        = ComposeMsg.decode (ComposeMsg.encodeBurnt r a)) ∧
     (∀ extra, ComposeMsg.decode (ComposeMsg.encodeCrossChainSend r ++ extra)
        = ComposeMsg.decode (ComposeMsg.encodeCrossChainSend r))) ∧
    (ComposeMsg.decode (mutate (ComposeMsg.encodeBurnt r a) 63 0) = some ⟨r, 0, beWord a⟩ ∧
     ComposeMsg.decode (mutate (ComposeMsg.encodeCrossChainSend r) 63 1) = some ⟨r, 1, []⟩) := by
  refine ⟨⟨fun k hk => decode_truncated_encodeBurnt r a hr k hk,
    fun k hk => decode_truncated_encodeCrossChainSend r hr k hk⟩,
    ⟨fun extra => ?_, fun extra => ?_⟩, ?_, ?_⟩
  · rw [ComposeMsg.encodeBurnt, decode_encode_append r 1 (beWord a) extra hr (by omega)
        (by rw [length_beWord]) (by rw [length_beWord]; norm_num),
      ← ComposeMsg.encodeBurnt, decode_encodeBurnt r a hr]
  · rw [ComposeMsg.encodeCrossChainSend, decode_encode_append r 0 [] extra hr (by omega)
        (by simp) (by norm_num),
      ← ComposeMsg.encodeCrossChainSend, decode_encodeCrossChainSend r hr]
  · rw [mutate_tag_encodeBurnt r a, decode_encode r 0 (beWord a) hr (by omega)
        (by rw [length_beWord]) (by rw [length_beWord]; norm_num)]
  · rw [mutate_tag_encodeCrossChainSend r, decode_encode r 1 [] hr (by omega)
        (by simp) (by norm_num)]

/-- C8 amended witness: truncations of `encodeBurnt 1 5` and of
`encodeCrossChainSend 1` all fail, appended bytes leave either decoded tuple
unchanged, and the tag-byte mutations flip the tags. -/
theorem c8_amended_truncation_only_witness :
    ((∀ k, k < 160 → ComposeMsg.decode ((ComposeMsg.encodeBurnt 1 5).take k) = none) ∧
     (∀ k, k < 128 → ComposeMsg.decode ((ComposeMsg.encodeCrossChainSend 1).take k) = none)) ∧
    ((∀ extra, ComposeMsg.decode (ComposeMsg.encodeBurnt 1 5 ++ extra)
        = ComposeMsg.decode (ComposeMsg.encodeBurnt 1 5)) ∧
     (∀ extra, ComposeMsg.decode (ComposeMsg.encodeCrossChainSend 1 ++ extra)
        = ComposeMsg.decode (ComposeMsg.encodeCrossChainSend 1))) ∧
    (ComposeMsg.decode (mutate (ComposeMsg.encodeBurnt 1 5) 63 0) = some ⟨1, 0, beWord 5⟩ ∧
     ComposeMsg.decode (mutate (ComposeMsg.encodeCrossChainSend 1) 63 1) = some ⟨1, 1, []⟩) :=
  c8_amended_truncation_only 1 5 (by decide) (by decide)

/-- C9: `sendComposed` fails with `Unauthorized` (`OwnableUnauthorizedAccount`) when
the caller is not the owner, and — for the owner — fails before building any request
with `InvalidEndpointId` when `dstEid = 0`, `NoPeerConfigured` when no peer is set for
the destination, and `NoCrossChainManager` when no manager is registered, checked in
that order by the `validDestination` modifier. -/
theorem c9_send_preconditions (s : OFTState) (caller toAddr amount dstEid messageType : Nat)
    (payInLzToken : Bool) (extraOptions : List Nat) :
    (caller ≠ s.owner →
      sendComposed s caller toAddr amount dstEid messageType payInLzToken extraOptions
        = .err .Unauthorized) ∧
    (caller = s.owner → dstEid = 0 →
      sendComposed s caller toAddr amount dstEid messageType payInLzToken extraOptions
        = .err .InvalidEndpointId) ∧
    (caller = s.owner → dstEid ≠ 0 → s.peers dstEid = 0 →
      sendComposed s caller toAddr amount dstEid messageType payInLzToken extraOptions
        = .err .NoPeerConfigured) ∧
    (caller = s.owner → dstEid ≠ 0 → s.peers dstEid ≠ 0 → s.crossChainManagers dstEid = 0 →
      sendComposed s caller toAddr amount dstEid messageType payInLzToken extraOptions
        = .err .NoCrossChainManager) := by
  refine ⟨fun h => by simp [sendComposed, h], fun hc h0 => ?_, fun hc h0 hp => ?_,
    fun hc h0 hp hm => ?_⟩
  all_goals simp [sendComposed, sendComposedInternal, validDestination, *]

/-- C9 witness: the four revert causes at concrete configurations. -/
theorem c9_send_preconditions_witness :
    sendComposed ⟨7, fun _ => 1, fun _ => 3⟩ 9 1 2 30 0 false [] = .err .Unauthorized ∧
    sendComposed ⟨7, fun _ => 1, fun _ => 3⟩ 7 1 2 0 0 false [] = .err .InvalidEndpointId ∧
    sendComposed ⟨7, fun _ => 0, fun _ => 3⟩ 7 1 2 30 0 false [] = .err .NoPeerConfigured ∧
    sendComposed ⟨7, fun _ => 1, fun _ => 0⟩ 7 1 2 30 0 false [] = .err .NoCrossChainManager :=
  ⟨(c9_send_preconditions ⟨7, fun _ => 1, fun _ => 3⟩ 9 1 2 30 0 false []).1 (by decide),
   (c9_send_preconditions ⟨7, fun _ => 1, fun _ => 3⟩ 7 1 2 0 0 false []).2.1 rfl rfl,
   (c9_send_preconditions ⟨7, fun _ => 0, fun _ => 3⟩ 7 1 2 30 0 false []).2.2.1 rfl
     (by decide) rfl,
   (c9_send_preconditions ⟨7, fun _ => 1, fun _ => 0⟩ 7 1 2 30 0 false []).2.2.2 rfl
     (by decide) (by decide) rfl⟩

/-- C10: for identical inputs, `quoteSendComposed` and the owner's `sendComposed`
construct the identical request — same destination, same manager as target, same
`amountLD` and `minAmountLD`, byte-identical compose payload, same `payInLzToken`
flag — so the fee `quoteSend` returns for the quote is the fee of the request the
send submits. -/
theorem c10_quote_matches_send (s : OFTState) (toAddr amount dstEid messageType : Nat)
    (payInLzToken : Bool) (extraOptions : List Nat) :
    quoteSendComposed s toAddr amount dstEid messageType payInLzToken extraOptions
      = sendComposed s s.owner toAddr amount dstEid messageType payInLzToken extraOptions := by
  simp [quoteSendComposed, sendComposed, sendComposedInternal]
